import Mathlib

/-!
Verification of the lifecycle and shutdown coordination subsystem of the
p2pool daemon, against its Go sources.

The development shallowly embeds:
* `ThreadGroup` (vendor/github.com/NebulousLabs/Sia/sync/threadgroup.go)
  as a state machine over interleaved atomic events (each method body is
  atomic up to the points where it blocks, since the methods take the
  single mutex of the group around their bookkeeping);
* the micro-structure of `ThreadGroup.Stop` and `ThreadGroup.Done` as a
  list of instructions annotated with whether the mutex is held;
* `ConsensusSet.loadDB` (vendor/.../modules/consensus/persist.go);
* `Siad.Start` (siad/siad.go) as a function of an environment giving the
  result of each collaborator call.
-/

/-- State of a `ThreadGroup`.  `stopped` mirrors whether `stopChan` has been
closed, `counter` mirrors the `sync.WaitGroup` counter, `stopFns` holds the
identifiers of the registered (not yet executed) cleanup hooks in
registration order, `executed` logs the hooks that have been invoked in
invocation order, and `broadcasts` counts the `close(stopChan)` calls. -/
structure TG where
  stopped : Bool
  counter : Nat
  stopFns : List Nat
  executed : List Nat
  broadcasts : Nat
deriving DecidableEq

/-- A zero-initialized `ThreadGroup` (the struct is valid with its zero
value; `stopChan` is created lazily by `chanOnce`). -/
def TG.start : TG :=
  { stopped := false, counter := 0, stopFns := [], executed := [], broadcasts := 0 }

/-- Atomic events on a `ThreadGroup`.  `add` and `done` are calls to
`Add`/`Done`; `onStop h` registers (or, when already stopped, inline-runs)
hook `h`; `stopBegin` is the mutex-held phase of `Stop` (check, close the
channel, run the hooks in reverse, clear them); `stopEnd` is the return
from `wg.Wait()` inside `Stop`. -/
inductive Ev where
  | add
  | done
  | onStop (h : Nat)
  | stopBegin
  | stopEnd
deriving DecidableEq

/-- Observable result of one atomic event: `ok` is a `nil` error, `proceed`
marks a `Stop` call that passed the already-stopped check and went on to
drain, `errStopped` is `ErrStopped`, `unitRes` is a `void` return. -/
inductive Res where
  | ok
  | proceed
  | errStopped
  | unitRes
deriving DecidableEq

/-- One atomic event on the group, translated from threadgroup.go:
`Add` fails with `ErrStopped` once stopped, else increments; `Done`
decrements; `OnStop` runs the hook inline when stopped, else appends it;
the first phase of `Stop` fails when already stopped, else marks stopped,
closes the channel, runs the pending hooks in reverse order and clears
them; `stopEnd` is `wg.Wait()` returning, after which `Stop` returns `nil`. -/
def step (s : TG) : Ev → TG × Res
  | Ev.add =>
      if s.stopped then (s, Res.errStopped)
      else ({ s with counter := s.counter + 1 }, Res.ok)
  | Ev.done => ({ s with counter := s.counter - 1 }, Res.unitRes)
  | Ev.onStop h =>
      if s.stopped then ({ s with executed := s.executed ++ [h] }, Res.unitRes)
      else ({ s with stopFns := s.stopFns ++ [h] }, Res.unitRes)
  | Ev.stopBegin =>
      if s.stopped then (s, Res.errStopped)
      else
        ({ s with
            stopped := true
            broadcasts := s.broadcasts + 1
            executed := s.executed ++ s.stopFns.reverse
            stopFns := [] }, Res.proceed)
  | Ev.stopEnd => (s, Res.ok)

/-- Run a sequence of atomic events. -/
def run (s : TG) : List Ev → TG
  | [] => s
  | e :: t => run (step s e).1 t

/-- A trace is valid when it respects the `sync.WaitGroup` contract:
`Done` only fires with a positive counter (a negative counter is a runtime
fault in Go), and `wg.Wait()` inside `Stop` only returns when the counter
is zero and the stop has actually begun. -/
def validFrom (s : TG) : List Ev → Bool
  | [] => true
  | e :: t =>
      (match e with
        | Ev.done => decide (0 < s.counter)
        | Ev.stopEnd => s.stopped && decide (s.counter = 0)
        | _ => true)
      && validFrom (step s e).1 t

/-- A sample trace: one acquisition, one hook registration, the matching
release, then a stop that drains immediately. -/
def traceA : List Ev := [Ev.add, Ev.onStop 0, Ev.done, Ev.stopBegin, Ev.stopEnd]

theorem run_append (t₁ t₂ : List Ev) (s : TG) :
    run s (t₁ ++ t₂) = run (run s t₁) t₂ := by
  induction t₁ generalizing s with
  | nil => rfl
  | cons e t ih => simp [run, ih]

theorem validFrom_append (t₁ t₂ : List Ev) (s : TG)
    (h : validFrom s (t₁ ++ t₂) = true) : validFrom (run s t₁) t₂ = true := by
  induction t₁ generalizing s with
  | nil => simpa [run] using h
  | cons e t ih =>
      simp only [List.cons_append, validFrom, Bool.and_eq_true] at h
      exact ih _ h.2

theorem stopped_of_run_no_stopBegin (t : List Ev) (s : TG)
    (hs : s.stopped = false) (hmem : Ev.stopBegin ∉ t) :
    (run s t).stopped = false := by
  induction t generalizing s with
  | nil => simpa [run] using hs
  | cons e t ih =>
      have he : e ≠ Ev.stopBegin := fun h => hmem (by simp [h])
      have hmem' : Ev.stopBegin ∉ t := fun h => hmem (by simp [h])
      cases e with
      | add => exact ih _ (by simp [step, hs]) hmem'
      | done => exact ih _ (by simp [step, hs]) hmem'
      | onStop h => exact ih _ (by simp [step, hs]) hmem'
      | stopBegin => exact absurd rfl he
      | stopEnd => exact ih _ (by simp [step, hs]) hmem'

theorem stopped_mono (t : List Ev) (s : TG) (hs : s.stopped = true) :
    (run s t).stopped = true := by
  induction t generalizing s with
  | nil => simpa [run] using hs
  | cons e t ih =>
      cases e with
      | add => exact ih _ (by simp [step, hs])
      | done => exact ih _ (by simp [step, hs])
      | onStop h => exact ih _ (by simp [step, hs])
      | stopBegin => exact ih _ (by simp [step, hs])
      | stopEnd => exact ih _ (by simp [step, hs])

theorem stopped_of_mem_stopBegin (t : List Ev) (s : TG)
    (hmem : Ev.stopBegin ∈ t) : (run s t).stopped = true := by
  induction t generalizing s with
  | nil => cases hmem
  | cons e t ih =>
      rcases List.mem_cons.mp hmem with he | hm
      · subst he
        show (run (step s Ev.stopBegin).1 t).stopped = true
        apply stopped_mono
        by_cases hs : s.stopped
        · simp [step, hs]
        · simp [step, hs]
      · exact ih _ hm

theorem hook_count_invariant (t : List Ev) (s : TG) (h : Nat) :
    (run s t).executed.count h + (run s t).stopFns.count h
      = s.executed.count h + s.stopFns.count h + t.count (Ev.onStop h) := by
  induction t generalizing s with
  | nil => simp [run]
  | cons e t ih =>
      cases e with
      | add =>
          by_cases hs : s.stopped <;>
            simp [run, step, hs, ih, List.count_cons]
      | done => simp [run, step, ih, List.count_cons]
      | onStop h' =>
          by_cases hs : s.stopped <;> by_cases hh : h' = h <;>
            simp [run, step, hs, ih, List.count_cons, List.count_append, hh] <;>
            omega
      | stopBegin =>
          by_cases hs : s.stopped <;>
            simp [run, step, hs, ih, List.count_cons, List.count_append,
              List.count_reverse]
      | stopEnd => simp [run, step, ih, List.count_cons]

theorem run_onStop_registrations (hs : List Nat) (s : TG)
    (hstop : s.stopped = false) :
    run s (hs.map Ev.onStop) = { s with stopFns := s.stopFns ++ hs } := by
  induction hs generalizing s with
  | nil => simp [run]
  | cons h t ih =>
      simp only [List.map_cons, run, step, hstop, Bool.false_eq_true, if_false]
      rw [ih _ (by simp [hstop])]
      simp

/-- Claim C1: for every sequence of successful `Add` calls each matched by a
`Done`, with a concurrent `Stop`: `Stop` returns only after the counter has
reached exactly zero (the event completing `wg.Wait` can only occur in a
valid trace at a state with counter zero), it is not rejected for its first
caller (the first `stopBegin` proceeds, and the completing event returns the
`nil` error), and no cleanup hook registered at most once is ever executed
more than once. -/
theorem stop_drains_first_caller_ok_hooks_once (t : List Ev)
    (hv : validFrom TG.start t = true) :
    (∀ t₁ t₂, t = t₁ ++ Ev.stopEnd :: t₂ → (run TG.start t₁).counter = 0)
  ∧ (∀ t₁ t₂, t = t₁ ++ Ev.stopBegin :: t₂ → Ev.stopBegin ∉ t₁ →
      (step (run TG.start t₁) Ev.stopBegin).2 = Res.proceed)
  ∧ (∀ s : TG, (step s Ev.stopEnd).2 = Res.ok)
  ∧ (∀ h : Nat, t.count (Ev.onStop h) ≤ 1 →
      (run TG.start t).executed.count h ≤ 1) := by
  refine ⟨?_, ?_, ?_, ?_⟩
  · intro t₁ t₂ ht
    subst ht
    have h2 := validFrom_append t₁ (Ev.stopEnd :: t₂) TG.start hv
    simp only [validFrom, Bool.and_eq_true, decide_eq_true_eq] at h2
    exact h2.1.2
  · intro t₁ t₂ ht hmem
    have h0 : (run TG.start t₁).stopped = false :=
      stopped_of_run_no_stopBegin t₁ TG.start rfl hmem
    simp [step, h0]
  · intro s
    rfl
  · intro h hle
    have hinv := hook_count_invariant t TG.start h
    have h0 : TG.start.executed.count h = 0 := rfl
    have h1 : TG.start.stopFns.count h = 0 := rfl
    omega

theorem stop_drains_first_caller_ok_hooks_once_witness :
    validFrom TG.start traceA = true
  ∧ ((∀ t₁ t₂, traceA = t₁ ++ Ev.stopEnd :: t₂ → (run TG.start t₁).counter = 0)
    ∧ (∀ t₁ t₂, traceA = t₁ ++ Ev.stopBegin :: t₂ → Ev.stopBegin ∉ t₁ →
        (step (run TG.start t₁) Ev.stopBegin).2 = Res.proceed)
    ∧ (∀ s : TG, (step s Ev.stopEnd).2 = Res.ok)
    ∧ (∀ h : Nat, traceA.count (Ev.onStop h) ≤ 1 →
        (run TG.start traceA).executed.count h ≤ 1)) :=
  ⟨by decide, stop_drains_first_caller_ok_hooks_once traceA (by decide)⟩

/-- Claim C4: hooks registered before `Stop` run during the first `Stop`
call in strictly reverse registration order and the hook list is then
cleared; a hook registered on an already stopped group runs inline before
`OnStop` returns; and any hook registered at most once is executed at most
once. -/
theorem hooks_reverse_order_late_inline (hs : List Nat) (h : Nat) (s : TG)
    (hstop : s.stopped = true) :
    (run TG.start (hs.map Ev.onStop ++ [Ev.stopBegin])).executed = hs.reverse
  ∧ (run TG.start (hs.map Ev.onStop ++ [Ev.stopBegin])).stopFns = []
  ∧ (step s (Ev.onStop h)).1.executed = s.executed ++ [h]
  ∧ (step s (Ev.onStop h)).2 = Res.unitRes
  ∧ (∀ t : List Ev, t.count (Ev.onStop h) ≤ 1 →
      (run TG.start t).executed.count h ≤ 1) := by
  have hreg : run TG.start (hs.map Ev.onStop)
      = { TG.start with stopFns := hs } := by
    rw [run_onStop_registrations hs TG.start rfl]
    simp [TG.start]
  refine ⟨?_, ?_, ?_, ?_, ?_⟩
  · rw [run_append, hreg]
    simp [run, step, TG.start]
  · rw [run_append, hreg]
    simp [run, step, TG.start]
  · simp [step, hstop]
  · simp [step, hstop]
  · intro t hle
    have hinv := hook_count_invariant t TG.start h
    have h0 : TG.start.executed.count h = 0 := rfl
    have h1 : TG.start.stopFns.count h = 0 := rfl
    omega

theorem hooks_reverse_order_late_inline_witness :
    (run TG.start ([1, 2, 3].map Ev.onStop ++ [Ev.stopBegin])).executed = [3, 2, 1]
  ∧ (run TG.start ([1, 2, 3].map Ev.onStop ++ [Ev.stopBegin])).stopFns = []
  ∧ (step { TG.start with stopped := true, broadcasts := 1 } (Ev.onStop 7)).1.executed
      = [] ++ [7]
  ∧ (step { TG.start with stopped := true, broadcasts := 1 } (Ev.onStop 7)).2
      = Res.unitRes
  ∧ (∀ t : List Ev, t.count (Ev.onStop 7) ≤ 1 →
      (run TG.start t).executed.count 7 ≤ 1) :=
  hooks_reverse_order_late_inline [1, 2, 3] 7
    { TG.start with stopped := true, broadcasts := 1 } rfl

/-- Claim C5: once `Stop` has begun on a group (in particular once it has
completed), every later `Stop` call returns `ErrStopped` and leaves the
state completely unchanged: no hook is executed again and the stop channel
is not closed again. -/
theorem second_stop_rejected_no_effect (t : List Ev)
    (ht : Ev.stopBegin ∈ t) :
    (run TG.start t).stopped = true
  ∧ step (run TG.start t) Ev.stopBegin = ((run TG.start t), Res.errStopped) := by
  have h1 : (run TG.start t).stopped = true := stopped_of_mem_stopBegin t TG.start ht
  exact ⟨h1, by simp [step, h1]⟩

theorem second_stop_rejected_no_effect_witness :
    (run TG.start [Ev.stopBegin, Ev.stopEnd]).stopped = true
  ∧ step (run TG.start [Ev.stopBegin, Ev.stopEnd]) Ev.stopBegin
      = ((run TG.start [Ev.stopBegin, Ev.stopEnd]), Res.errStopped) :=
  second_stop_rejected_no_effect [Ev.stopBegin, Ev.stopEnd] (by decide)

/-- Claim C6: once the stop signal has fired (including mid-drain, i.e.
after `stopBegin` with the counter still positive, and at any later point,
since `stopped` is monotone), every `Add` call returns `ErrStopped` and
leaves the state, in particular the counter, unchanged. -/
theorem add_after_stop_rejected (s : TG) (t : List Ev)
    (hstop : s.stopped = true) :
    (run s t).stopped = true
  ∧ step (run s t) Ev.add = ((run s t), Res.errStopped) := by
  have h1 : (run s t).stopped = true := stopped_mono t s hstop
  exact ⟨h1, by simp [step, h1]⟩

theorem add_after_stop_rejected_witness :
    (run { TG.start with stopped := true, counter := 2, broadcasts := 1 }
        [Ev.done]).stopped = true
  ∧ step (run { TG.start with stopped := true, counter := 2, broadcasts := 1 }
        [Ev.done]) Ev.add
      = ((run { TG.start with stopped := true, counter := 2, broadcasts := 1 }
        [Ev.done]), Res.errStopped) :=
  add_after_stop_rejected
    { TG.start with stopped := true, counter := 2, broadcasts := 1 } [Ev.done] rfl

/-- Micro-instructions of the `ThreadGroup` method bodies, at the
granularity of the source lines of threadgroup.go: acquiring and releasing
`tg.mu`, the already-stopped check, `close(tg.stopChan)`, invoking the
`i`-th registered hook (`tg.stopFns[i]()`), `tg.stopFns = nil`,
`tg.wg.Wait()`, returning `nil`, and `tg.wg.Done()`. -/
inductive StopOp where
  | lock
  | checkStopped
  | closeChan
  | runHook (i : Nat)
  | clearFns
  | unlock
  | waitCounter
  | retNil
  | wgDone
deriving DecidableEq

/-- The body of `Stop` on the non-already-stopped path with `n` registered
hooks, instruction by instruction from the source: lock, check, close the
channel, run hooks `n-1, ..., 0` in that (reverse) order, clear the hook
list, unlock, wait for the counter, return `nil`. -/
def stopBody (n : Nat) : List StopOp :=
  [StopOp.lock, StopOp.checkStopped, StopOp.closeChan]
    ++ ((List.range n).reverse.map StopOp.runHook)
    ++ [StopOp.clearFns, StopOp.unlock, StopOp.waitCounter, StopOp.retNil]

/-- The body of `Done`: it only calls `tg.wg.Done()` and never touches
`tg.mu`. -/
def doneBody : List StopOp := [StopOp.wgDone]

/-- Annotate each instruction with whether the mutex is held while it
executes (the state before the instruction; `lock` itself executes with the
mutex free, `unlock` with it held). -/
def lockTrace : Bool → List StopOp → List (StopOp × Bool)
  | _, [] => []
  | held, StopOp.lock :: rest => (StopOp.lock, held) :: lockTrace true rest
  | held, StopOp.unlock :: rest => (StopOp.unlock, held) :: lockTrace false rest
  | held, op :: rest => (op, held) :: lockTrace held rest

/-- Recognizer for hook-invocation instructions. -/
def isRunHook : StopOp → Bool
  | StopOp.runHook _ => true
  | _ => false

/-- Recognizer for the drain-wait instruction. -/
def isWaitOp : StopOp → Bool
  | StopOp.waitCounter => true
  | _ => false

theorem lockTrace_runHooks (l : List Nat) (rest : List StopOp) :
    lockTrace true (l.map StopOp.runHook ++ rest)
      = (l.map fun i => (StopOp.runHook i, true)) ++ lockTrace true rest := by
  induction l with
  | nil => rfl
  | cons i l ih => simp [lockTrace, ih]

theorem lockTrace_stopBody (n : Nat) :
    lockTrace false (stopBody n)
      = [(StopOp.lock, false), (StopOp.checkStopped, true), (StopOp.closeChan, true)]
        ++ ((List.range n).reverse.map fun i => (StopOp.runHook i, true))
        ++ [(StopOp.clearFns, true), (StopOp.unlock, true),
            (StopOp.waitCounter, false), (StopOp.retNil, false)] := by
  have h := lockTrace_runHooks ((List.range n).reverse)
    [StopOp.clearFns, StopOp.unlock, StopOp.waitCounter, StopOp.retNil]
  simp only [stopBody, lockTrace, List.cons_append, List.nil_append, List.append_eq]
  rw [h]
  rfl

theorem all_runHook_pairs (l : List Nat) (q : StopOp × Bool → Bool)
    (hq : ∀ i, q (StopOp.runHook i, true) = true) :
    ((l.map fun i => (StopOp.runHook i, true)).all q) = true := by
  induction l with
  | nil => rfl
  | cons i l ih => simp [List.all_cons, hq, ih]

/-- Claim C9, counterexample: in a `Stop` with one registered cleanup hook,
the hook is invoked while `tg.mu` is held — the source releases the mutex
only after the hook loop — so the lock IS held across the execution of
cleanup hooks. -/
theorem stop_lock_across_hooks_cex :
    (StopOp.runHook 0, true) ∈ lockTrace false (stopBody 1) := by decide

/-- Claim C9 as amended: during `Stop` the mutex is never held across the
drain wait (`wg.Wait()` executes with the mutex already released, and the
wait instruction does occur), every cleanup hook is executed while the
mutex IS held, and `Done` never acquires the mutex, so `Done` calls made
during the drain are never blocked by the lock taken in `Stop`. -/
theorem stop_lock_discipline (n : Nat) :
    ((lockTrace false (stopBody n)).all fun p => !(isWaitOp p.1) || !p.2) = true
  ∧ ((lockTrace false (stopBody n)).all fun p => !(isRunHook p.1) || p.2) = true
  ∧ (StopOp.waitCounter, false) ∈ lockTrace false (stopBody n)
  ∧ doneBody.contains StopOp.lock = false := by
  refine ⟨?_, ?_, ?_, by decide⟩
  · rw [lockTrace_stopBody]
    have hmap := all_runHook_pairs ((List.range n).reverse)
      (fun p => !(isWaitOp p.1) || !p.2) (fun i => rfl)
    simp [List.all_append, hmap, isWaitOp]
  · rw [lockTrace_stopBody]
    have hmap := all_runHook_pairs ((List.range n).reverse)
      (fun p => !(isRunHook p.1) || p.2) (fun i => rfl)
    simp [List.all_append, hmap, isRunHook]
  · rw [lockTrace_stopBody]
    simp [List.mem_append]

/-- The error string built in loadDB when the database contains
inconsistencies (named `CorruptState` in the spec). -/
def corruptStateMsg : String := "database contains inconsistencies"

/-- The error string built in loadDB when the stored genesis block differs
from the one this binary expects (named `GenesisMismatch` in the spec). -/
def genesisMismatchMsg : String := "Blockchain has wrong genesis block, exiting."

/-- The fields of the persisted consensus store read by `loadDB`.
Modelled from the spec: the helpers `dbInitialized`, `inconsistencyDetected`
and `getPath tx 0` are not under src/, so per §3/§4.2 the store is a record
with an `initialized` flag, an `inconsistency` marker and a stored genesis
identity (a fixed-size identifier, here a `Nat`). -/
structure Store where
  initialized : Bool
  inconsistent : Bool
  genesisID : Nat
deriving DecidableEq

/-- Whether the load ran the fresh-initialization routine (`cs.initDB`) or
resumed without re-initializing. -/
inductive InitAction where
  | ranInit
  | skippedInit
deriving DecidableEq

/-- Translation of `ConsensusSet.loadDB` from persist.go: open the database (`openErr` is
the result of `cs.openDB`; `some e` propagates `e`), then inside one
`db.Update` transaction: if not initialized, run `cs.initDB` (modelled from
the spec as the fresh-initialization routine, which succeeds on an empty
store); else if inconsistencies were detected, fail with the corrupt-state
error; else compare the stored genesis identity at path height 0 with
`cs.blockRoot.Block.ID()` (`expectedGenesisID`) and fail on mismatch;
else succeed without re-initializing. -/
def loadDB (openErr : Option String) (st : Store) (expectedGenesisID : Nat) :
    Except String InitAction :=
  match openErr with
  | some e => Except.error e
  | none =>
      if st.initialized = false then Except.ok InitAction.ranInit
      else if st.inconsistent = true then Except.error corruptStateMsg
      else if st.genesisID ≠ expectedGenesisID then Except.error genesisMismatchMsg
      else Except.ok InitAction.skippedInit

/-- Claim C3: with the database open succeeding, the integrity-gated load is
the four-way case analysis: a never-initialized store is freshly initialized
and the load succeeds; an initialized store with the inconsistency marker
fails with the corrupt-state error; an initialized, consistent store whose
stored genesis identity differs from the expected one fails with the
genesis-mismatch error; an initialized, consistent store with the matching
genesis identity loads successfully without re-running initialization. -/
theorem loadDB_four_way (st : Store) (g : Nat) :
    (st.initialized = false → loadDB none st g = Except.ok InitAction.ranInit)
  ∧ (st.initialized = true → st.inconsistent = true →
      loadDB none st g = Except.error corruptStateMsg)
  ∧ (st.initialized = true → st.inconsistent = false → st.genesisID ≠ g →
      loadDB none st g = Except.error genesisMismatchMsg)
  ∧ (st.initialized = true → st.inconsistent = false → st.genesisID = g →
      loadDB none st g = Except.ok InitAction.skippedInit) := by
  refine ⟨?_, ?_, ?_, ?_⟩ <;> intros <;> simp [loadDB, *]

theorem loadDB_four_way_witness :
    loadDB none { initialized := false, inconsistent := false, genesisID := 5 } 5
        = Except.ok InitAction.ranInit
  ∧ loadDB none { initialized := true, inconsistent := true, genesisID := 5 } 5
        = Except.error corruptStateMsg
  ∧ loadDB none { initialized := true, inconsistent := false, genesisID := 4 } 5
        = Except.error genesisMismatchMsg
  ∧ loadDB none { initialized := true, inconsistent := false, genesisID := 5 } 5
        = Except.ok InitAction.skippedInit :=
  ⟨(loadDB_four_way ⟨false, false, 5⟩ 5).1 rfl,
   (loadDB_four_way ⟨true, true, 5⟩ 5).2.1 rfl rfl,
   (loadDB_four_way ⟨true, false, 4⟩ 5).2.2.1 rfl rfl (by decide),
   (loadDB_four_way ⟨true, false, 5⟩ 5).2.2.2 rfl rfl rfl⟩

/-- Environment for `Siad.Start` (siad/siad.go): the result of each
collaborator call.  `gatewayErr`, `consensusErr`, `tpoolErr`,
`apiServerErr` are the error components of `gateway.New`, `consensus.New`,
`transactionpool.New` and `api.NewServer` (`none` is success);
`permResult` is what `crypto.Perm(len(modules.BootstrapPeers))` returns —
modelled from the spec, since crypto.Perm is not under src/: on success a
uniformly random permutation of the indices of the peer list, as a freshly
allocated slice whose length (and capacity) is the length of that list;
`connectResult` gives the outcome of `g.Connect` on each peer index (each
such call is spawned with `go` and its result discarded); `serveResult` is
what `srv.Serve()` returns; `bootstrapPeers` is the fixed
`modules.BootstrapPeers` list (also not under src/). -/
structure SiadEnv where
  gatewayErr : Option String
  consensusErr : Option String
  tpoolErr : Option String
  apiServerErr : Option String
  permResult : Except String (List Nat)
  connectResult : Nat → Option String
  serveResult : Option String
  bootstrapPeers : List String

/-- Observable events of one `Start` run, in program order: the four module
constructions, the permutation draw, the spawned bootstrap dials, and the
final blocking `srv.Serve()` call. -/
inductive StartEv where
  | loadGateway
  | loadConsensus
  | loadTPool
  | newServer
  | drawPerm
  | dial (addr : String)
  | serve
deriving DecidableEq

/-- Result of a `Start` run: `ok` (`Serve` returned `nil`), `fail e` (the
error `e` was returned), or `sliceOutOfRange` (the run faults: re-slicing
the permutation to its first three entries is out of range, a Go runtime
fault). -/
inductive StartRes where
  | ok
  | fail (e : String)
  | sliceOutOfRange
deriving DecidableEq

/-- Translation of `Siad.Start` from siad/siad.go, line by line: construct the gateway,
the consensus set, the transaction pool and the API server, returning the
error of the constructor unchanged at the first failure; then draw the random
permutation, returning its error unchanged on failure; then `perm[:3]` —
which in Go faults unless `3 ≤ cap(perm) = len(perm)` — and spawn
`go g.Connect(modules.BootstrapPeers[i])` for each of the first three
indices, discarding the results; finally return what `srv.Serve()`
returns. -/
def siadStart (env : SiadEnv) : StartRes × List StartEv :=
  match env.gatewayErr with
  | some e => (StartRes.fail e, [StartEv.loadGateway])
  | none =>
    match env.consensusErr with
    | some e => (StartRes.fail e, [StartEv.loadGateway, StartEv.loadConsensus])
    | none =>
      match env.tpoolErr with
      | some e =>
          (StartRes.fail e,
            [StartEv.loadGateway, StartEv.loadConsensus, StartEv.loadTPool])
      | none =>
        match env.apiServerErr with
        | some e =>
            (StartRes.fail e,
              [StartEv.loadGateway, StartEv.loadConsensus, StartEv.loadTPool,
                StartEv.newServer])
        | none =>
          match env.permResult with
          | Except.error e =>
              (StartRes.fail e,
                [StartEv.loadGateway, StartEv.loadConsensus, StartEv.loadTPool,
                  StartEv.newServer, StartEv.drawPerm])
          | Except.ok perm =>
              if 3 ≤ perm.length then
                (match env.serveResult with
                  | some e => StartRes.fail e
                  | none => StartRes.ok,
                 [StartEv.loadGateway, StartEv.loadConsensus, StartEv.loadTPool,
                    StartEv.newServer, StartEv.drawPerm]
                   ++ ((perm.take 3).map fun i =>
                        StartEv.dial (env.bootstrapPeers.getD i ""))
                   ++ [StartEv.serve])
              else
                (StartRes.sliceOutOfRange,
                  [StartEv.loadGateway, StartEv.loadConsensus, StartEv.loadTPool,
                    StartEv.newServer, StartEv.drawPerm])

/-- Extract the address of a dial event. -/
def dialAddr : StartEv → Option String
  | StartEv.dial a => some a
  | _ => none

/-- The addresses dialed by a `Start` run, in order. -/
def dialedAddrs (env : SiadEnv) : List String :=
  (siadStart env).2.filterMap dialAddr

/-- Recognizer for the four module-construction events. -/
def isCtorEv : StartEv → Bool
  | StartEv.loadGateway => true
  | StartEv.loadConsensus => true
  | StartEv.loadTPool => true
  | StartEv.newServer => true
  | _ => false

/-- The module-construction events of a `Start` run, in order. -/
def ctorTrace (env : SiadEnv) : List StartEv := (siadStart env).2.filter isCtorEv

/-- The full construction order: Network (gateway), ChainState (consensus),
TransactionPool, Serving (API server). -/
def ctorFullOrder : List StartEv :=
  [StartEv.loadGateway, StartEv.loadConsensus, StartEv.loadTPool, StartEv.newServer]

/-- An environment where everything succeeds (vacuously: the bootstrap peer
list is empty, so the permutation is empty as well). -/
def envBase : SiadEnv :=
  { gatewayErr := none, consensusErr := none, tpoolErr := none,
    apiServerErr := none, permResult := Except.ok [],
    connectResult := fun _ => none, serveResult := none, bootstrapPeers := [] }

/-- An environment whose gateway (Network-stage) constructor fails. -/
def envGwFail : SiadEnv := { envBase with gatewayErr := some "boom" }

/-- An environment whose consensus (ChainState-stage) constructor fails
with the same underlying error as the gateway failure of `envGwFail`. -/
def envCsFail : SiadEnv := { envBase with consensusErr := some "boom" }

/-- An environment whose transaction-pool (TransactionPool-stage)
constructor fails. -/
def envTpFail : SiadEnv := { envBase with tpoolErr := some "boom" }

/-- An environment whose API-server (Serving-stage) constructor fails. -/
def envApiFail : SiadEnv := { envBase with apiServerErr := some "boom" }

/-- An environment with four bootstrap peers where every call succeeds. -/
def envBoot : SiadEnv :=
  { envBase with
      bootstrapPeers := ["peerA", "peerB", "peerC", "peerD"]
      permResult := Except.ok [2, 0, 3, 1] }

/-- An environment with only two bootstrap peers (N < 3) where every
collaborator call succeeds. -/
def envShort : SiadEnv :=
  { envBase with
      bootstrapPeers := ["peerA", "peerB"]
      permResult := Except.ok [1, 0] }

/-- An environment where the four constructors succeed but the random
permutation draw fails. -/
def envPermFail : SiadEnv :=
  { envBase with permResult := Except.error "entropy unavailable" }

theorem filter_ctor_dialEvs (l : List Nat) (f : Nat → String) :
    ((l.map fun i => StartEv.dial (f i)).filter isCtorEv) = [] := by
  induction l with
  | nil => rfl
  | cons i l ih => simp [List.filter_cons, isCtorEv, ih]

theorem ctorTrace_ordered (env : SiadEnv) :
    ctorTrace env = ctorFullOrder.take (ctorTrace env).length := by
  obtain ⟨g, c, t, a, p, cn, sv, bp⟩ := env
  cases g with
  | some e => rfl
  | none =>
  cases c with
  | some e => rfl
  | none =>
  cases t with
  | some e => rfl
  | none =>
  cases a with
  | some e => rfl
  | none =>
  cases p with
  | error e => rfl
  | ok perm =>
    by_cases h3 : 3 ≤ perm.length
    · simp only [ctorTrace, siadStart, h3, if_true, if_pos h3, List.filter_append,
        List.filter_cons, filter_ctor_dialEvs, isCtorEv, ctorFullOrder]
      simp [List.filter_cons, isCtorEv]
    · simp [ctorTrace, siadStart, h3, isCtorEv, ctorFullOrder, List.filter_cons]

/-- Claim C2, counterexample: a Network-stage (gateway) failure and a
ChainState-stage (consensus) failure with the same underlying error "boom"
make `Start` return the exact same value, `StartRes.fail "boom"` — the
error is returned unchanged, so it is not wrapped with and cannot identify
the stage that produced it (the two runs differ: the first constructs only
the gateway, the second also the consensus set). -/
theorem start_error_not_stage_tagged_cex :
    (siadStart envGwFail).1 = (siadStart envCsFail).1
  ∧ (siadStart envGwFail).2 = [StartEv.loadGateway]
  ∧ (siadStart envCsFail).2 = [StartEv.loadGateway, StartEv.loadConsensus]
  ∧ (siadStart envCsFail).1 = StartRes.fail "boom" :=
  ⟨rfl, rfl, rfl, rfl⟩

/-- Claim C2 as amended: the four stages are constructed in the fixed order
gateway, consensus, transaction pool, API server (the construction trace is
always a prefix of that order); if the constructor of ANY stage fails, no
later stage is constructed and `Start` returns that same constructor error
unchanged — not wrapped with the stage that produced it.  The four
implications cover the first failing stage being Network, ChainState,
TransactionPool or Serving respectively: in each case the trace is exactly
the constructions up to and including the failing stage (so no later stage,
no permutation draw, no dial, no serve), and the returned value is the raw
error.  In particular a ChainState failure means TransactionPool and
Serving are never constructed. -/
theorem start_stage_order_short_circuit (env : SiadEnv) (e : String) :
    (env.gatewayErr = some e →
        siadStart env = (StartRes.fail e, [StartEv.loadGateway]))
  ∧ (env.gatewayErr = none → env.consensusErr = some e →
        siadStart env
          = (StartRes.fail e, [StartEv.loadGateway, StartEv.loadConsensus]))
  ∧ (env.gatewayErr = none → env.consensusErr = none → env.tpoolErr = some e →
        siadStart env
          = (StartRes.fail e,
              [StartEv.loadGateway, StartEv.loadConsensus, StartEv.loadTPool]))
  ∧ (env.gatewayErr = none → env.consensusErr = none → env.tpoolErr = none →
      env.apiServerErr = some e →
        siadStart env
          = (StartRes.fail e,
              [StartEv.loadGateway, StartEv.loadConsensus, StartEv.loadTPool,
                StartEv.newServer]))
  ∧ ctorTrace env = ctorFullOrder.take (ctorTrace env).length := by
  refine ⟨?_, ?_, ?_, ?_, ctorTrace_ordered env⟩
  · intro hg
    simp [siadStart, hg]
  · intro hg hc
    simp [siadStart, hg, hc]
  · intro hg hc ht
    simp [siadStart, hg, hc, ht]
  · intro hg hc ht ha
    simp [siadStart, hg, hc, ht, ha]

theorem start_stage_order_short_circuit_witness :
    siadStart envGwFail = (StartRes.fail "boom", [StartEv.loadGateway])
  ∧ siadStart envCsFail
      = (StartRes.fail "boom", [StartEv.loadGateway, StartEv.loadConsensus])
  ∧ siadStart envTpFail
      = (StartRes.fail "boom",
          [StartEv.loadGateway, StartEv.loadConsensus, StartEv.loadTPool])
  ∧ siadStart envApiFail
      = (StartRes.fail "boom",
          [StartEv.loadGateway, StartEv.loadConsensus, StartEv.loadTPool,
            StartEv.newServer])
  ∧ ctorTrace envCsFail = ctorFullOrder.take (ctorTrace envCsFail).length :=
  ⟨(start_stage_order_short_circuit envGwFail "boom").1 rfl,
   (start_stage_order_short_circuit envCsFail "boom").2.1 rfl rfl,
   (start_stage_order_short_circuit envTpFail "boom").2.2.1 rfl rfl rfl,
   (start_stage_order_short_circuit envApiFail "boom").2.2.2.1 rfl rfl rfl rfl,
   (start_stage_order_short_circuit envCsFail "boom").2.2.2.2⟩

/-- Claim C10: if the four constructors succeed but the random permutation
draw fails, `Start` returns that error: the trace shows all four modules
already constructed and the permutation drawn, and contains no `serve`
event (and no dial), so the failure is fatal to startup before `Serve` is
ever called. -/
theorem perm_failure_fatal (env : SiadEnv) (e : String)
    (hg : env.gatewayErr = none) (hc : env.consensusErr = none)
    (ht : env.tpoolErr = none) (ha : env.apiServerErr = none)
    (hp : env.permResult = Except.error e) :
    siadStart env
      = (StartRes.fail e,
          [StartEv.loadGateway, StartEv.loadConsensus, StartEv.loadTPool,
            StartEv.newServer, StartEv.drawPerm]) := by
  simp [siadStart, hg, hc, ht, ha, hp]

theorem perm_failure_fatal_witness :
    siadStart envPermFail
      = (StartRes.fail "entropy unavailable",
          [StartEv.loadGateway, StartEv.loadConsensus, StartEv.loadTPool,
            StartEv.newServer, StartEv.drawPerm]) :=
  perm_failure_fatal envPermFail "entropy unavailable" rfl rfl rfl rfl rfl

/-- Claim C8, counterexample: with a two-peer bootstrap list (N = 2 < 3)
and every collaborator call succeeding, the run does not dial at most N
peers and continue — it faults: `perm[:3]` on the length-2 permutation is
out of range, the result of `Start` is the slice-bounds fault and no peer is
dialed, contradicting "does not fail". -/
theorem short_peer_list_cex :
    (siadStart envShort).1 = StartRes.sliceOutOfRange
  ∧ dialedAddrs envShort = [] :=
  ⟨rfl, rfl⟩

/-- Claim C8 as amended: for every bootstrap peer list of size N < 3, the
bootstrap step does not proceed safely: re-slicing the length-N permutation
to its first 3 entries is out of range, so `Start` faults with the
slice-bounds fault, attempts no dial at all, and never reaches `Serve`. -/
theorem short_peer_list_faults (env : SiadEnv) (p : List Nat)
    (hg : env.gatewayErr = none) (hc : env.consensusErr = none)
    (ht : env.tpoolErr = none) (ha : env.apiServerErr = none)
    (hp : env.permResult = Except.ok p)
    (hlen : p.length = env.bootstrapPeers.length)
    (hN : env.bootstrapPeers.length < 3) :
    (siadStart env).1 = StartRes.sliceOutOfRange
  ∧ dialedAddrs env = []
  ∧ StartEv.serve ∉ (siadStart env).2 := by
  have h3 : ¬ 3 ≤ p.length := by omega
  refine ⟨?_, ?_, ?_⟩ <;>
    simp [siadStart, dialedAddrs, hg, hc, ht, ha, hp, h3, dialAddr]

theorem short_peer_list_faults_witness :
    (siadStart envShort).1 = StartRes.sliceOutOfRange
  ∧ dialedAddrs envShort = []
  ∧ StartEv.serve ∉ (siadStart envShort).2 :=
  short_peer_list_faults envShort [1, 0] rfl rfl rfl rfl rfl rfl (by decide)

theorem filterMap_dialAddr_dialEvs (l : List Nat) (f : Nat → String) :
    ((l.map fun i => StartEv.dial (f i)).filterMap dialAddr) = l.map f := by
  induction l with
  | nil => rfl
  | cons i l ih => simp [List.filterMap_cons, dialAddr, ih]

theorem siadStart_ok_trace (env : SiadEnv) (p : List Nat)
    (hg : env.gatewayErr = none) (hc : env.consensusErr = none)
    (ht : env.tpoolErr = none) (ha : env.apiServerErr = none)
    (hp : env.permResult = Except.ok p) (h3 : 3 ≤ p.length) :
    (siadStart env).2
      = [StartEv.loadGateway, StartEv.loadConsensus, StartEv.loadTPool,
          StartEv.newServer, StartEv.drawPerm]
        ++ ((p.take 3).map fun i => StartEv.dial (env.bootstrapPeers.getD i ""))
        ++ [StartEv.serve] := by
  simp [siadStart, hg, hc, ht, ha, hp, h3]

theorem dialedAddrs_ok (env : SiadEnv) (p : List Nat)
    (hg : env.gatewayErr = none) (hc : env.consensusErr = none)
    (ht : env.tpoolErr = none) (ha : env.apiServerErr = none)
    (hp : env.permResult = Except.ok p) (h3 : 3 ≤ p.length) :
    dialedAddrs env = (p.take 3).map fun i => env.bootstrapPeers.getD i "" := by
  rw [dialedAddrs, siadStart_ok_trace env p hg hc ht ha hp h3]
  simp only [List.filterMap_append, List.filterMap_cons, dialAddr,
    List.filterMap_nil, List.nil_append, List.append_nil]
  rw [filterMap_dialAddr_dialEvs]

/-- Claim C7: with every constructor succeeding and the drawn permutation
`p` ranging over all permutations of the peer-list indices (modelled from
the spec: `crypto.Perm` is not under src/ and the spec specifies a
uniformly random permutation of the full index list, so the theorem holds
for every value the draw can produce), a peer list of size N ≥ 3 yields
exactly 3 dials of pairwise distinct peers from the list, and the run is
fire-and-forget with respect to the dials: the outcome of every
`g.Connect` call is discarded, so the result and trace of `Start` are unchanged
under any reassignment of the dial outcomes. -/
theorem bootstrap_dials_three_distinct (env : SiadEnv) (p : List Nat)
    (f : Nat → Option String)
    (hg : env.gatewayErr = none) (hc : env.consensusErr = none)
    (ht : env.tpoolErr = none) (ha : env.apiServerErr = none)
    (hp : env.permResult = Except.ok p)
    (hperm : p.Perm (List.range env.bootstrapPeers.length))
    (hN : 3 ≤ env.bootstrapPeers.length)
    (hnd : env.bootstrapPeers.Nodup) :
    (dialedAddrs env).length = 3
  ∧ (dialedAddrs env).Nodup
  ∧ (∀ a ∈ dialedAddrs env, a ∈ env.bootstrapPeers)
  ∧ siadStart { env with connectResult := f } = siadStart env := by
  have hlen : p.length = env.bootstrapPeers.length := by
    simpa using hperm.length_eq
  have h3 : 3 ≤ p.length := by omega
  have hda := dialedAddrs_ok env p hg hc ht ha hp h3
  have hpnd : p.Nodup := hperm.nodup_iff.mpr (List.nodup_range _)
  have htknd : (p.take 3).Nodup := (List.take_sublist 3 p).nodup hpnd
  have hmemlt : ∀ i ∈ p.take 3, i < env.bootstrapPeers.length := by
    intro i hi
    exact List.mem_range.mp (hperm.mem_iff.mp (List.mem_of_mem_take hi))
  refine ⟨?_, ?_, ?_, ?_⟩
  · rw [hda]
    simp only [List.length_map, List.length_take]
    omega
  · rw [hda]
    refine List.Nodup.map_on ?_ htknd
    intro i hi j hj hij
    have hi' := hmemlt i hi
    have hj' := hmemlt j hj
    rw [List.getD_eq_getElem _ _ hi', List.getD_eq_getElem _ _ hj'] at hij
    exact (hnd.getElem_inj_iff).mp hij
  · rw [hda]
    intro a ha
    obtain ⟨i, hi, rfl⟩ := List.mem_map.mp ha
    rw [List.getD_eq_getElem _ _ (hmemlt i hi)]
    exact List.getElem_mem _
  · obtain ⟨g, c, t, a, pr, cn, sv, bp⟩ := env
    rfl

theorem bootstrap_dials_three_distinct_witness :
    (dialedAddrs envBoot).length = 3
  ∧ (dialedAddrs envBoot).Nodup
  ∧ (∀ a ∈ dialedAddrs envBoot, a ∈ envBoot.bootstrapPeers)
  ∧ siadStart { envBoot with connectResult := fun _ => some "dial failed" }
      = siadStart envBoot :=
  bootstrap_dials_three_distinct envBoot [2, 0, 3, 1]
    (fun _ => some "dial failed") rfl rfl rfl rfl rfl
    (by decide) (by decide) (by decide)
